import Mathlib

/-!
Verification development for the `health` package: a liveness/readiness
health-check registry and HTTP dispatcher (`health/handler.go`).

The Go code is embedded shallowly:
* a `Check` (`func() error`) becomes `Unit → Option Err`, with `none`
  modelling a nil error (success);
* Go maps from name to check become association lists whose keys are
  unique (`Nodup` hypotheses state the map invariant where needed);
  iteration order of a Go map is arbitrary, so theorems quantify over
  the list order;
* the statuses written through `rw.WriteHeader` and the body written by
  `http.Error` become fields of an explicit `HandleResult`; check
  invocations and diagnostic log entries are recorded in the result so
  that claims about "invoked exactly once" and about logging are
  statable;
* a Go panic (out-of-range string index in `newChecksHandler`, duplicate
  pattern registration in `http.ServeMux`) becomes `none` in an
  `Option`-valued function.
-/

namespace Health

/-- A failure reason; a Go `error` value.  A check returning `none`
models a nil error (success). -/
abbrev Err := String

/-- `type Check func() error`: a zero-argument check function. -/
abbrev Check := Unit → Option Err

/-- A check set, `map[string]Check` in Go.  An entry whose second
component is `none` models a name registered with a nil `Check`. -/
abbrev ChecksMap := List (String × Option Check)

/-- A `logrus.Logger` as far as this package observes it: the only
property the code inspects is whether its output is `ioutil.Discard`. -/
structure Logger where
  outDiscard : Bool
deriving Repr, DecidableEq

/-- The `checksHandler` struct (the `sync.RWMutex` field is not
represented: evaluation is modelled sequentially). -/
structure checksHandler where
  livenessPath : String
  livenessChecks : ChecksMap
  readinessPath : String
  readinessChecks : ChecksMap
  failFast : Bool
  logger : Option Logger

/-- An incoming `*http.Request` as far as `handle` observes it:
its method, its `URL.RawPath` (used only in log entries), and the
logrus entry carried by its context (`ctxlogrus.Extract`). -/
structure Request where
  method : String
  rawPath : String
  ctxLogger : Option Logger

/-- `healthPath[0] != '/'` normalization from `newChecksHandler`.
Indexing an empty Go string panics, modelled by `none`. -/
def normalizePath (p : String) : Option String :=
  match p.data.head? with
  | none => none
  | some c => if c ≠ '/' then some ("/" ++ p) else some p

/-- `newChecksHandler`: normalize the two paths, start with empty check
sets, fail-fast disabled (Go zero value) and no logger. -/
def newChecksHandler (healthPath readyPath : String) : Option checksHandler := do
  let hp ← normalizePath healthPath
  let rp ← normalizePath readyPath
  pure { livenessPath := hp
         livenessChecks := []
         readinessPath := rp
         readinessChecks := []
         failFast := false
         logger := none }

/-- `NewChecksHandler` exported constructor (returns the `Checker`
interface in Go; the same record here). -/
def NewChecksHandler (healthPath readyPath : String) : Option checksHandler :=
  newChecksHandler healthPath readyPath

/-- `SetFailFast`. -/
def SetFailFast (ch : checksHandler) (failFast : Bool) : checksHandler :=
  { ch with failFast := failFast }

/-- `GetFailFast`. -/
def GetFailFast (ch : checksHandler) : Bool :=
  ch.failFast

/-- The `WithLogger` functional option. -/
def WithLogger (logger : Logger) (ch : checksHandler) : checksHandler :=
  { ch with logger := some logger }

/-- Go map assignment `m[name] = check`: overwrite the entry for `name`
if present, otherwise append a new entry. -/
def mapSet (m : ChecksMap) (name : String) (check : Option Check) : ChecksMap :=
  if (m.map Prod.fst).contains name then
    m.map (fun e => if e.1 = name then (name, check) else e)
  else
    m ++ [(name, check)]

/-- `AddLiveness`: `ch.livenessChecks[name] = check` under the lock. -/
def AddLiveness (ch : checksHandler) (name : String) (check : Option Check) :
    checksHandler :=
  { ch with livenessChecks := mapSet ch.livenessChecks name check }

/-- `AddReadiness`: `ch.readinessChecks[name] = check` under the lock. -/
def AddReadiness (ch : checksHandler) (name : String) (check : Option Check) :
    checksHandler :=
  { ch with readinessChecks := mapSet ch.readinessChecks name check }

/-- `checkLogger`: a logrus entry is usable unless it is nil or its
output is `ioutil.Discard`. -/
def checkLogger (logger : Option Logger) : Option Logger × Bool :=
  match logger with
  | none => (none, false)
  | some l => if l.outDiscard then (some l, false) else (some l, true)

/-- The mutable state threaded through the check-evaluation loop of
`handle`: the aggregate `status`, the `errors` map (as an ordered list
of recordings), plus instrumentation — the names on which a check
function was actually called, and the diagnostic log entries emitted. -/
structure LoopState where
  status : Nat
  errors : List (String × Err)
  invoked : List String
  logs : List String
deriving Repr, DecidableEq

/-- The inner `for name, check := range checks` loop of `handle`.
`logOn` records whether a usable logger was resolved.  The boolean in
the result is `true` when the loop returned early (fail-fast). -/
def checkLoop (failFast : Bool) (logOn : Bool) :
    ChecksMap → LoopState → LoopState × Bool
  | [], s => (s, false)
  | (_, none) :: rest, s => checkLoop failFast logOn rest s
  | (name, some c) :: rest, s =>
    let s1 := { s with invoked := s.invoked ++ [name] }
    match c () with
    | none => checkLoop failFast logOn rest s1
    | some err =>
      let s2 := { s1 with
        status := 503
        errors := s1.errors ++ [(name, err)]
        logs := s1.logs ++
          (if logOn then ["health check returned error: " ++ err] else []) }
      if failFast then (s2, true) else checkLoop failFast logOn rest s2

/-- The outer `for _, checks := range checksSets` loop of `handle`;
an early return from the inner loop returns from the whole handler. -/
def setsLoop (failFast : Bool) (logOn : Bool) :
    List ChecksMap → LoopState → LoopState × Bool
  | [], s => (s, false)
  | checks :: rest, s =>
    match checkLoop failFast logOn checks s with
    | (s1, true) => (s1, true)
    | (s1, false) => setsLoop failFast logOn rest s1

/-- Everything a call to `handle` makes observable: the status code and
body written to the `http.ResponseWriter`, the recorded error map, the
checks invoked, and the diagnostic log entries emitted. -/
structure HandleResult where
  status : Nat
  body : String
  errors : List (String × Err)
  invoked : List String
  logs : List String
deriving Repr, DecidableEq

/-- Lines 165-169 of `handle`: start from the registry's logger and
prefer the context entry's logger when `checkLogger` deems it usable. -/
def resolveLogger (ch : checksHandler) (r : Request) : Option Logger :=
  match checkLogger r.ctxLogger with
  | (ctxl, true) => ctxl
  | (_, false) => ch.logger

/-- `handle`: resolve the logger (context entry preferred when usable),
reject non-GET with 405 via `http.Error` (which writes the status text
and a newline as body), otherwise run every check set and write the
aggregate status with an empty body. -/
def handle (ch : checksHandler) (r : Request) (checksSets : List ChecksMap) :
    HandleResult :=
  let logger := resolveLogger ch r
  if r.method ≠ "GET" then
    { status := 405
      body := "Method Not Allowed\n"
      errors := []
      invoked := []
      logs := if logger.isSome then ["received non-GET request"] else [] }
  else
    let s0 : LoopState := { status := 200, errors := [], invoked := [], logs := [] }
    let res := setsLoop ch.failFast logger.isSome checksSets s0
    { status := res.1.status
      body := ""
      errors := res.1.errors
      invoked := res.1.invoked
      logs := res.1.logs }

/-- `healthEndpoint`: `handle` over the liveness check set. -/
def healthEndpoint (ch : checksHandler) (r : Request) : HandleResult :=
  handle ch r [ch.livenessChecks]

/-- `readyEndpoint`: `handle` over the readiness check set. -/
def readyEndpoint (ch : checksHandler) (r : Request) : HandleResult :=
  handle ch r [ch.readinessChecks]

/-- `http.ServeMux` as far as this package observes it: the set of
registered patterns, in registration order.  `ServeMux.HandleFunc`
panics (modelled by `none`) on an empty pattern or on a pattern that
already has a handler. -/
def muxHandleFunc (mux : List String) (pattern : String) :
    Option (List String) :=
  if pattern = "" then none
  else if pattern ∈ mux then none
  else some (mux ++ [pattern])

/-- `registerMux`: register the readiness endpoint, then the liveness
endpoint, on the given mux. -/
def registerMux (ch : checksHandler) (mux : List String) :
    Option (List String) := do
  let m1 ← muxHandleFunc mux ch.readinessPath
  muxHandleFunc m1 ch.livenessPath

/-- `Handler`: build a fresh `http.ServeMux` and register both
endpoints on it. -/
def Handler (ch : checksHandler) : Option (List String) :=
  registerMux ch []

/-- `RegisterHandler`: register both endpoints on a caller-supplied
mux. -/
def RegisterHandler (ch : checksHandler) (mux : List String) :
    Option (List String) :=
  registerMux ch mux

/-- The names of a check set's entries whose check is non-nil: exactly
the entries on which the evaluation loop calls the check function. -/
def activeNames (m : ChecksMap) : List String :=
  (m.filter (fun e => e.2.isSome)).map Prod.fst

/-- An entry holds a non-nil check that reports failure. -/
def entryFails (e : String × Option Check) : Bool :=
  match e.2 with
  | none => false
  | some c => (c ()).isSome

/-! ### Helper lemmas about the evaluation loop -/

/-- With fail-fast disabled the inner loop never returns early. -/
theorem checkLoop_false_flag (logOn : Bool) (entries : ChecksMap)
    (s : LoopState) : (checkLoop false logOn entries s).2 = false := by
  induction entries generalizing s with
  | nil => rfl
  | cons e rest ih =>
    obtain ⟨name, check⟩ := e
    cases check with
    | none => simpa [checkLoop] using ih s
    | some c =>
      cases hc : c () with
      | none => simpa [checkLoop, hc] using ih _
      | some err => simpa [checkLoop, hc] using ih _

/-- With fail-fast disabled the loop invokes exactly the non-nil
entries, in order. -/
theorem checkLoop_false_invoked (logOn : Bool) (entries : ChecksMap)
    (s : LoopState) :
    (checkLoop false logOn entries s).1.invoked =
      s.invoked ++ activeNames entries := by
  induction entries generalizing s with
  | nil => simp [checkLoop, activeNames]
  | cons e rest ih =>
    obtain ⟨name, check⟩ := e
    cases check with
    | none => simpa [checkLoop, activeNames] using ih s
    | some c =>
      cases hc : c () with
      | none =>
        have h := ih { s with invoked := s.invoked ++ [name] }
        simp [checkLoop, hc, activeNames] at h ⊢
        simp [h]
      | some err =>
        have h := ih { s with
          invoked := s.invoked ++ [name]
          status := 503
          errors := s.errors ++ [(name, err)]
          logs := s.logs ++
            (if logOn then ["health check returned error: " ++ err] else []) }
        simp [checkLoop, hc, activeNames] at h ⊢
        simp [h]

/-- Once the aggregate status is 503 it stays 503 (with fail-fast
disabled): the loop only ever writes 503 into the status. -/
theorem checkLoop_false_status_keep (logOn : Bool) (entries : ChecksMap)
    (s : LoopState) (h503 : s.status = 503) :
    (checkLoop false logOn entries s).1.status = 503 := by
  induction entries generalizing s with
  | nil => simpa [checkLoop] using h503
  | cons e rest ih =>
    obtain ⟨name, check⟩ := e
    cases check with
    | none => simpa [checkLoop] using ih s h503
    | some c =>
      cases hc : c () with
      | none =>
        have h := ih { s with invoked := s.invoked ++ [name] } h503
        simpa [checkLoop, hc] using h
      | some err =>
        have h := ih { s with
          invoked := s.invoked ++ [name]
          status := 503
          errors := s.errors ++ [(name, err)]
          logs := s.logs ++
            (if logOn then ["health check returned error: " ++ err] else []) }
          rfl
        simpa [checkLoop, hc] using h

/-- With fail-fast disabled and no failing entry, the loop leaves the
aggregate status untouched. -/
theorem checkLoop_false_status_ok (logOn : Bool) (entries : ChecksMap)
    (s : LoopState) (h : entries.any entryFails = false) :
    (checkLoop false logOn entries s).1.status = s.status := by
  induction entries generalizing s with
  | nil => rfl
  | cons e rest ih =>
    obtain ⟨name, check⟩ := e
    rw [List.any_cons] at h
    have h1 : entryFails (name, check) = false := by
      cases hh : entryFails (name, check) <;> simp_all
    have h2 : rest.any entryFails = false := by
      cases hh : rest.any entryFails <;> simp_all
    cases check with
    | none => simpa [checkLoop] using ih s h2
    | some c =>
      have hco : c () = none := by
        cases hcc : c () with
        | none => rfl
        | some err => simp [entryFails, hcc] at h1
      have h3 := ih { s with invoked := s.invoked ++ [name] } h2
      simpa [checkLoop, hco] using h3

/-- With fail-fast disabled and some failing entry, the final aggregate
status is 503. -/
theorem checkLoop_false_status_fail (logOn : Bool) (entries : ChecksMap)
    (s : LoopState) (h : entries.any entryFails = true) :
    (checkLoop false logOn entries s).1.status = 503 := by
  induction entries generalizing s with
  | nil => simp at h
  | cons e rest ih =>
    obtain ⟨name, check⟩ := e
    rw [List.any_cons] at h
    cases check with
    | none =>
      have h2 : rest.any entryFails = true := by
        simpa [entryFails] using h
      simpa [checkLoop] using ih s h2
    | some c =>
      cases hc : c () with
      | none =>
        have h1 : entryFails (name, some c) = false := by
          simp [entryFails, hc]
        rw [h1] at h
        have h2 : rest.any entryFails = true := by simpa using h
        have h3 := ih { s with invoked := s.invoked ++ [name] } h2
        simpa [checkLoop, hc] using h3
      | some err =>
        have h3 := checkLoop_false_status_keep logOn rest
          { s with
            invoked := s.invoked ++ [name]
            status := 503
            errors := s.errors ++ [(name, err)]
            logs := s.logs ++
              (if logOn then ["health check returned error: " ++ err] else []) }
          rfl
        simpa [checkLoop, hc] using h3

/-- With fail-fast disabled, running a single check set just runs the
inner loop. -/
theorem setsLoop_false_single (logOn : Bool) (checks : ChecksMap)
    (s : LoopState) :
    setsLoop false logOn [checks] s =
      ((checkLoop false logOn checks s).1, false) := by
  have hf := checkLoop_false_flag logOn checks s
  rcases hcl : checkLoop false logOn checks s with ⟨s1, b⟩
  rw [hcl] at hf
  simp at hf
  subst hf
  simp [setsLoop, hcl]

/-- Unfolding `handle` on a GET request. -/
theorem handle_get (ch : checksHandler) (r : Request)
    (sets : List ChecksMap) (hm : r.method = "GET") :
    handle ch r sets =
      { status := (setsLoop ch.failFast (resolveLogger ch r).isSome sets
          { status := 200, errors := [], invoked := [], logs := [] }).1.status
        body := ""
        errors := (setsLoop ch.failFast (resolveLogger ch r).isSome sets
          { status := 200, errors := [], invoked := [], logs := [] }).1.errors
        invoked := (setsLoop ch.failFast (resolveLogger ch r).isSome sets
          { status := 200, errors := [], invoked := [], logs := [] }).1.invoked
        logs := (setsLoop ch.failFast (resolveLogger ch r).isSome sets
          { status := 200, errors := [], invoked := [], logs := [] }).1.logs } := by
  simp [handle, hm]

/-- With fail-fast enabled, when every entry of `pre` is non-failing
and the next entry holds a failing check, the loop returns early with
status 503 having invoked exactly the non-nil entries of `pre` and then
the failing check. -/
theorem checkLoop_true_stops (logOn : Bool) (pre post : ChecksMap)
    (name : String) (c : Check) (err : Err) (s : LoopState)
    (hpre : pre.any entryFails = false) (hc : c () = some err) :
    (checkLoop true logOn (pre ++ (name, some c) :: post) s).2 = true ∧
    (checkLoop true logOn (pre ++ (name, some c) :: post) s).1.invoked =
      s.invoked ++ activeNames pre ++ [name] ∧
    (checkLoop true logOn (pre ++ (name, some c) :: post) s).1.status = 503 := by
  induction pre generalizing s with
  | nil => simp [checkLoop, hc, activeNames]
  | cons e pre ih =>
    obtain ⟨nm, check⟩ := e
    rw [List.any_cons] at hpre
    have h1 : entryFails (nm, check) = false := by
      cases hh : entryFails (nm, check) <;> simp_all
    have h2 : pre.any entryFails = false := by
      cases hh : pre.any entryFails <;> simp_all
    cases check with
    | none =>
      have h := ih s h2
      simp only [checkLoop, List.cons_append] at h ⊢
      simpa [activeNames] using h
    | some c2 =>
      have hco : c2 () = none := by
        cases hcc : c2 () with
        | none => rfl
        | some e2 => simp [entryFails, hcc] at h1
      have h := ih { s with invoked := s.invoked ++ [nm] } h2
      simp only [checkLoop, List.cons_append, hco] at h ⊢
      simpa [activeNames] using h

/-- When the inner loop on a single check set returns early, the outer
loop returns its result unchanged. -/
theorem setsLoop_single_early (ff logOn : Bool) (checks : ChecksMap)
    (s : LoopState) (h : (checkLoop ff logOn checks s).2 = true) :
    setsLoop ff logOn [checks] s = checkLoop ff logOn checks s := by
  rcases hcl : checkLoop ff logOn checks s with ⟨s1, b⟩
  rw [hcl] at h
  simp at h
  subst h
  simp [setsLoop, hcl]

/-- The status, errors, invocations and early-return flag of the inner
loop do not depend on whether a logger is present, nor on the log
entries accumulated so far. -/
theorem checkLoop_logs_indep (ff : Bool) (entries : ChecksMap)
    (lo1 lo2 : Bool) (s1 s2 : LoopState)
    (hst : s1.status = s2.status) (herr : s1.errors = s2.errors)
    (hinv : s1.invoked = s2.invoked) :
    (checkLoop ff lo1 entries s1).1.status =
      (checkLoop ff lo2 entries s2).1.status ∧
    (checkLoop ff lo1 entries s1).1.errors =
      (checkLoop ff lo2 entries s2).1.errors ∧
    (checkLoop ff lo1 entries s1).1.invoked =
      (checkLoop ff lo2 entries s2).1.invoked ∧
    (checkLoop ff lo1 entries s1).2 = (checkLoop ff lo2 entries s2).2 := by
  induction entries generalizing s1 s2 with
  | nil => exact ⟨hst, herr, hinv, rfl⟩
  | cons e rest ih =>
    obtain ⟨name, check⟩ := e
    cases check with
    | none => simpa [checkLoop] using ih s1 s2 hst herr hinv
    | some c =>
      cases hc : c () with
      | none =>
        have h := ih { s1 with invoked := s1.invoked ++ [name] }
            { s2 with invoked := s2.invoked ++ [name] }
            hst herr (by simp [hinv])
        simpa [checkLoop, hc] using h
      | some err =>
        cases ff with
        | false =>
          have h := ih
            { s1 with
              invoked := s1.invoked ++ [name]
              status := 503
              errors := s1.errors ++ [(name, err)]
              logs := s1.logs ++
                (if lo1 then ["health check returned error: " ++ err] else []) }
            { s2 with
              invoked := s2.invoked ++ [name]
              status := 503
              errors := s2.errors ++ [(name, err)]
              logs := s2.logs ++
                (if lo2 then ["health check returned error: " ++ err] else []) }
            rfl (by simp [herr]) (by simp [hinv])
          simpa [checkLoop, hc] using h
        | true => simp [checkLoop, hc, herr, hinv]

/-- The outer loop inherits the logger-independence of the inner
loop. -/
theorem setsLoop_logs_indep (ff : Bool) (sets : List ChecksMap)
    (lo1 lo2 : Bool) (s1 s2 : LoopState)
    (hst : s1.status = s2.status) (herr : s1.errors = s2.errors)
    (hinv : s1.invoked = s2.invoked) :
    (setsLoop ff lo1 sets s1).1.status =
      (setsLoop ff lo2 sets s2).1.status ∧
    (setsLoop ff lo1 sets s1).1.errors =
      (setsLoop ff lo2 sets s2).1.errors ∧
    (setsLoop ff lo1 sets s1).1.invoked =
      (setsLoop ff lo2 sets s2).1.invoked := by
  induction sets generalizing s1 s2 with
  | nil => exact ⟨hst, herr, hinv⟩
  | cons cs rest ih =>
    obtain ⟨h1, h2, h3, h4⟩ :=
      checkLoop_logs_indep ff cs lo1 lo2 s1 s2 hst herr hinv
    rcases hA : checkLoop ff lo1 cs s1 with ⟨t1, b1⟩
    rcases hB : checkLoop ff lo2 cs s2 with ⟨t2, b2⟩
    rw [hA, hB] at h1 h2 h3 h4
    simp only [] at h1 h2 h3 h4
    cases b2 with
    | true =>
      subst h4
      simp only [setsLoop, hA, hB]
      exact ⟨h1, h2, h3⟩
    | false =>
      subst h4
      have h := ih t1 t2 h1 h2 h3
      simpa [setsLoop, hA, hB] using h

/-- What a successful `normalizePath` produces: a path that begins with
a slash, unchanged when it already did, with a slash prepended when it
did not. -/
theorem normalizePath_spec (p q : String) (h : normalizePath p = some q) :
    q.data.head? = some '/' ∧
    (p.data.head? = some '/' → q = p) ∧
    (p.data.head? ≠ some '/' → q = "/" ++ p) := by
  unfold normalizePath at h
  split at h
  · exact absurd h (by simp)
  · rename_i c0 hd
    by_cases hc : c0 = '/'
    · subst hc
      rw [if_neg (by simp)] at h
      have hpq := Option.some.inj h
      subst hpq
      exact ⟨hd, fun _ => rfl, fun hn => absurd hd hn⟩
    · rw [if_pos hc] at h
      have hq := Option.some.inj h
      subst hq
      refine ⟨?_, ?_, fun _ => rfl⟩
      · rw [String.data_append]
        rfl
      · intro hp
        rw [hd] at hp
        simp at hp
        exact absurd hp hc

/-! ### Claims -/

/-- C1: on a GET request with fail-fast disabled, if the check set has
at least one failing (non-nil) check then the response status is 503
and every non-nil check of the set is invoked exactly once. -/
theorem claim1_no_fail_fast_runs_all (ch : checksHandler) (r : Request)
    (checks : ChecksMap) (hff : ch.failFast = false)
    (hm : r.method = "GET") (hnd : (checks.map Prod.fst).Nodup)
    (hfail : checks.any entryFails = true) :
    (handle ch r [checks]).status = 503 ∧
    (handle ch r [checks]).invoked = activeNames checks ∧
    ∀ e ∈ checks, e.2.isSome = true →
      (handle ch r [checks]).invoked.count e.1 = 1 := by
  have h1 : (handle ch r [checks]).status =
      (checkLoop false (resolveLogger ch r).isSome checks
        { status := 200, errors := [], invoked := [], logs := [] }).1.status := by
    rw [handle_get ch r [checks] hm, hff, setsLoop_false_single]
  have h2 : (handle ch r [checks]).invoked =
      (checkLoop false (resolveLogger ch r).isSome checks
        { status := 200, errors := [], invoked := [], logs := [] }).1.invoked := by
    rw [handle_get ch r [checks] hm, hff, setsLoop_false_single]
  have hinv : (handle ch r [checks]).invoked = activeNames checks := by
    rw [h2, checkLoop_false_invoked]
    rfl
  refine ⟨?_, hinv, ?_⟩
  · rw [h1]
    exact checkLoop_false_status_fail _ _ _ hfail
  · intro e he hsome
    rw [hinv]
    have hsub : (activeNames checks).Sublist (checks.map Prod.fst) :=
      (List.filter_sublist checks).map Prod.fst
    have hnodup : (activeNames checks).Nodup := hsub.nodup hnd
    have hmem : e.1 ∈ activeNames checks := by
      have hf : e ∈ checks.filter (fun e => e.2.isSome) :=
        List.mem_filter.mpr ⟨he, hsome⟩
      exact List.mem_map.mpr ⟨e, hf, rfl⟩
    exact List.count_eq_one_of_mem hnodup hmem

/-- Witness for C1: a three-entry set (healthy, failing, nil) with
fail-fast disabled answers 503 and the failing check is counted once,
as is the healthy one. -/
theorem claim1_witness :
    (handle ⟨"/health",
        [("ok", some fun _ => none), ("bad", some fun _ => some "boom"),
          ("nil", none)], "/ready", [], false, none⟩
      ⟨"GET", "/health", none⟩
      [[("ok", some fun _ => none), ("bad", some fun _ => some "boom"),
        ("nil", none)]]).status = 503 ∧
    (handle ⟨"/health",
        [("ok", some fun _ => none), ("bad", some fun _ => some "boom"),
          ("nil", none)], "/ready", [], false, none⟩
      ⟨"GET", "/health", none⟩
      [[("ok", some fun _ => none), ("bad", some fun _ => some "boom"),
        ("nil", none)]]).invoked = ["ok", "bad"] ∧
    (handle ⟨"/health",
        [("ok", some fun _ => none), ("bad", some fun _ => some "boom"),
          ("nil", none)], "/ready", [], false, none⟩
      ⟨"GET", "/health", none⟩
      [[("ok", some fun _ => none), ("bad", some fun _ => some "boom"),
        ("nil", none)]]).invoked.count "bad" = 1 := by
  have h := claim1_no_fail_fast_runs_all
    ⟨"/health",
      [("ok", some fun _ => none), ("bad", some fun _ => some "boom"),
        ("nil", none)], "/ready", [], false, none⟩
    ⟨"GET", "/health", none⟩
    [("ok", some fun _ => none), ("bad", some fun _ => some "boom"),
      ("nil", none)]
    rfl rfl (by decide) rfl
  exact ⟨h.1, h.2.1, h.2.2 ("bad", some fun _ => some "boom")
    (List.mem_cons_of_mem _ (List.mem_cons_self _ _)) rfl⟩

/-- C2: on a GET request with fail-fast enabled, when the set consists
of non-failing entries followed by a failing check and then anything,
the response status is 503, the invocations are exactly the non-nil
prefix entries plus the failing check (so iteration stopped there), at
most as many checks as the set holds are invoked, and the failing check
was invoked. -/
theorem claim2_fail_fast_stops (ch : checksHandler) (r : Request)
    (pre post : ChecksMap) (name : String) (c : Check) (err : Err)
    (hff : ch.failFast = true) (hm : r.method = "GET")
    (hpre : pre.any entryFails = false) (hc : c () = some err) :
    (handle ch r [pre ++ (name, some c) :: post]).status = 503 ∧
    (handle ch r [pre ++ (name, some c) :: post]).invoked =
      activeNames pre ++ [name] ∧
    (handle ch r [pre ++ (name, some c) :: post]).invoked.length ≤
      (pre ++ (name, some c) :: post).length ∧
    name ∈ (handle ch r [pre ++ (name, some c) :: post]).invoked := by
  have h := checkLoop_true_stops (resolveLogger ch r).isSome pre post name c
    err { status := 200, errors := [], invoked := [], logs := [] } hpre hc
  have hrw : handle ch r [pre ++ (name, some c) :: post] =
      { status := (checkLoop true (resolveLogger ch r).isSome
          (pre ++ (name, some c) :: post)
          { status := 200, errors := [], invoked := [], logs := [] }).1.status
        body := ""
        errors := (checkLoop true (resolveLogger ch r).isSome
          (pre ++ (name, some c) :: post)
          { status := 200, errors := [], invoked := [], logs := [] }).1.errors
        invoked := (checkLoop true (resolveLogger ch r).isSome
          (pre ++ (name, some c) :: post)
          { status := 200, errors := [], invoked := [], logs := [] }).1.invoked
        logs := (checkLoop true (resolveLogger ch r).isSome
          (pre ++ (name, some c) :: post)
          { status := 200, errors := [], invoked := [], logs := [] }).1.logs } := by
    rw [handle_get ch r _ hm, hff, setsLoop_single_early _ _ _ _ h.1]
  have hinv : (handle ch r [pre ++ (name, some c) :: post]).invoked =
      activeNames pre ++ [name] := by
    rw [hrw]
    have := h.2.1
    simpa using this
  refine ⟨?_, hinv, ?_, ?_⟩
  · rw [hrw]
    exact h.2.2
  · have hl : (activeNames pre).length ≤ pre.length := by
      have := List.length_filter_le (fun e => e.2.isSome) pre
      simpa [activeNames] using this
    have e1 : (activeNames pre ++ [name]).length =
        (activeNames pre).length + 1 := by
      rw [List.length_append, List.length_cons, List.length_nil]
    have e2 : (pre ++ (name, some c) :: post).length =
        pre.length + (post.length + 1) := by
      rw [List.length_append, List.length_cons]
    rw [hinv, e1, e2]
    omega
  · rw [hinv]
    exact List.mem_append_right _ (List.mem_singleton.mpr rfl)

/-- Witness for C2: with fail-fast enabled and entries healthy, failing,
then another failing check, the response is 503, only the first two
entries were invoked, and the third was skipped. -/
theorem claim2_witness :
    (handle ⟨"/health",
        [("ok", some fun _ => none), ("bad", some fun _ => some "boom"),
          ("late", some fun _ => some "later")], "/ready", [], true, none⟩
      ⟨"GET", "/health", none⟩
      [[("ok", some fun _ => none), ("bad", some fun _ => some "boom"),
        ("late", some fun _ => some "later")]]).status = 503 ∧
    (handle ⟨"/health",
        [("ok", some fun _ => none), ("bad", some fun _ => some "boom"),
          ("late", some fun _ => some "later")], "/ready", [], true, none⟩
      ⟨"GET", "/health", none⟩
      [[("ok", some fun _ => none), ("bad", some fun _ => some "boom"),
        ("late", some fun _ => some "later")]]).invoked = ["ok", "bad"] ∧
    (handle ⟨"/health",
        [("ok", some fun _ => none), ("bad", some fun _ => some "boom"),
          ("late", some fun _ => some "later")], "/ready", [], true, none⟩
      ⟨"GET", "/health", none⟩
      [[("ok", some fun _ => none), ("bad", some fun _ => some "boom"),
        ("late", some fun _ => some "later")]]).invoked.length ≤ 3 ∧
    "bad" ∈ (handle ⟨"/health",
        [("ok", some fun _ => none), ("bad", some fun _ => some "boom"),
          ("late", some fun _ => some "later")], "/ready", [], true, none⟩
      ⟨"GET", "/health", none⟩
      [[("ok", some fun _ => none), ("bad", some fun _ => some "boom"),
        ("late", some fun _ => some "later")]]).invoked := by
  have h := claim2_fail_fast_stops
    ⟨"/health",
      [("ok", some fun _ => none), ("bad", some fun _ => some "boom"),
        ("late", some fun _ => some "later")], "/ready", [], true, none⟩
    ⟨"GET", "/health", none⟩
    [("ok", some fun _ => none)] [("late", some fun _ => some "later")]
    "bad" (fun _ => some "boom") "boom" rfl rfl rfl rfl
  exact ⟨h.1, h.2.1, h.2.2.1, h.2.2.2⟩

/-- C5: whenever construction succeeds, both stored paths begin with a
slash; a path that already began with one is kept unchanged, and one
that did not gets a slash prepended. -/
theorem claim5_paths_normalized (hp rp : String) (ch : checksHandler)
    (h : newChecksHandler hp rp = some ch) :
    ch.livenessPath.data.head? = some '/' ∧
    ch.readinessPath.data.head? = some '/' ∧
    (hp.data.head? = some '/' → ch.livenessPath = hp) ∧
    (hp.data.head? ≠ some '/' → ch.livenessPath = "/" ++ hp) ∧
    (rp.data.head? = some '/' → ch.readinessPath = rp) ∧
    (rp.data.head? ≠ some '/' → ch.readinessPath = "/" ++ rp) := by
  unfold newChecksHandler at h
  cases hh : normalizePath hp with
  | none =>
    rw [hh] at h
    exact absurd h (by simp)
  | some hpn =>
    cases hr : normalizePath rp with
    | none =>
      rw [hh, hr] at h
      exact absurd h (by simp)
    | some rpn =>
      rw [hh, hr] at h
      simp only [Option.bind_eq_bind, Option.some_bind, Option.some.injEq,
        pure] at h
      obtain ⟨s1, s2, s3⟩ := normalizePath_spec hp hpn hh
      obtain ⟨t1, t2, t3⟩ := normalizePath_spec rp rpn hr
      subst h
      exact ⟨s1, t1, s2, s3, t2, t3⟩

/-- Witness for C5: constructing with `"health"` and `"/ready"` stores
`/health` (slash prepended) and `/ready` (kept). -/
theorem claim5_witness :
    (⟨"/health", [], "/ready", [], false, none⟩
      : checksHandler).livenessPath.data.head? = some '/' ∧
    (⟨"/health", [], "/ready", [], false, none⟩
      : checksHandler).livenessPath = "/" ++ "health" ∧
    (⟨"/health", [], "/ready", [], false, none⟩
      : checksHandler).readinessPath = "/ready" := by
  have h := claim5_paths_normalized "health" "/ready"
    ⟨"/health", [], "/ready", [], false, none⟩ rfl
  exact ⟨h.1, h.2.2.2.1 (by decide), h.2.2.2.2.1 (by decide)⟩

/-- C6: the status code (and body) of a response never depends on
whether a logger is configured on the registry or carried by the
request context; logger presence only changes the diagnostics. -/
theorem claim6_logger_noninterference (ch : checksHandler) (r : Request)
    (sets : List ChecksMap) (l1 l2 o1 o2 : Option Logger) :
    (handle { ch with logger := l1 } { r with ctxLogger := o1 } sets).status =
      (handle { ch with logger := l2 } { r with ctxLogger := o2 } sets).status ∧
    (handle { ch with logger := l1 } { r with ctxLogger := o1 } sets).body =
      (handle { ch with logger := l2 } { r with ctxLogger := o2 } sets).body := by
  by_cases hm : r.method = "GET"
  · rw [handle_get { ch with logger := l1 } { r with ctxLogger := o1 } sets hm,
      handle_get { ch with logger := l2 } { r with ctxLogger := o2 } sets hm]
    have h := setsLoop_logs_indep ch.failFast sets
      (resolveLogger { ch with logger := l1 } { r with ctxLogger := o1 }).isSome
      (resolveLogger { ch with logger := l2 } { r with ctxLogger := o2 }).isSome
      { status := 200, errors := [], invoked := [], logs := [] }
      { status := 200, errors := [], invoked := [], logs := [] }
      rfl rfl rfl
    exact ⟨h.1, rfl⟩
  · simp [handle, hm]

/-- C3: a request to either endpoint whose method is not GET gets
status 405, with no aggregation performed and no check invoked,
whatever checks are registered. -/
theorem claim3_non_get_rejected (ch : checksHandler) (r : Request)
    (sets : List ChecksMap) (hm : r.method ≠ "GET") :
    (handle ch r sets).status = 405 ∧
    (handle ch r sets).invoked = [] ∧
    (handle ch r sets).errors = [] := by
  simp [handle, hm]

/-- Witness for C3: a POST request against a registry with a failing
liveness check still gets 405 with nothing invoked. -/
theorem claim3_witness :
    (handle ⟨"/health", [("bad", some fun _ => some "boom")], "/ready", [],
        false, none⟩ ⟨"POST", "/health", none⟩
        [[("bad", some fun _ => some "boom")]]).status = 405 ∧
    (handle ⟨"/health", [("bad", some fun _ => some "boom")], "/ready", [],
        false, none⟩ ⟨"POST", "/health", none⟩
        [[("bad", some fun _ => some "boom")]]).invoked = [] ∧
    (handle ⟨"/health", [("bad", some fun _ => some "boom")], "/ready", [],
        false, none⟩ ⟨"POST", "/health", none⟩
        [[("bad", some fun _ => some "boom")]]).errors = [] :=
  claim3_non_get_rejected _ _ _ (by decide)

/-- C4: a GET request against an empty check set returns 200 on both
endpoints: an empty set is vacuously healthy. -/
theorem claim4_empty_set_healthy (ch : checksHandler) (r : Request)
    (hm : r.method = "GET") (hl : ch.livenessChecks = [])
    (hr : ch.readinessChecks = []) :
    (healthEndpoint ch r).status = 200 ∧
    (readyEndpoint ch r).status = 200 := by
  constructor <;>
    simp [healthEndpoint, readyEndpoint, handle_get _ _ _ hm, hl, hr,
      setsLoop, checkLoop]

/-- Witness for C4: a freshly constructed registry answers 200 on both
endpoints. -/
theorem claim4_witness :
    (healthEndpoint ⟨"/health", [], "/ready", [], false, none⟩
        ⟨"GET", "/health", none⟩).status = 200 ∧
    (readyEndpoint ⟨"/health", [], "/ready", [], false, none⟩
        ⟨"GET", "/health", none⟩).status = 200 :=
  claim4_empty_set_healthy _ _ rfl rfl rfl

/-- C8: every GET request that reaches status aggregation gets an empty
response body, in the success and failure cases alike; only the status
code is observable even though the name-to-reason map is computed. -/
theorem claim8_empty_body (ch : checksHandler) (r : Request)
    (sets : List ChecksMap) (hm : r.method = "GET") :
    (handle ch r sets).body = "" := by
  simp [handle, hm]

/-- Witness for C8: empty body both on an all-healthy evaluation and on
a failing one. -/
theorem claim8_witness :
    (handle ⟨"/health", [], "/ready", [], false, none⟩
        ⟨"GET", "/health", none⟩ [[]]).body = "" ∧
    (handle ⟨"/health", [], "/ready", [], false, none⟩
        ⟨"GET", "/health", none⟩
        [[("bad", some fun _ => some "boom")]]).body = "" :=
  ⟨claim8_empty_body _ _ _ rfl, claim8_empty_body _ _ _ rfl⟩

/-- C9: constructing the registry with an empty path string panics
(out-of-range index into the path), on either argument; modelled by
`none`. -/
theorem claim9_empty_path_panics :
    NewChecksHandler "" "/ready" = none ∧
    NewChecksHandler "/healthz" "" = none := by
  constructor <;> rfl

/-- C7: registering a check in one set leaves the other endpoint's
evaluation untouched, in both directions. -/
theorem claim7_frame (ch : checksHandler) (name : String)
    (check : Option Check) (r : Request) :
    readyEndpoint (AddLiveness ch name check) r = readyEndpoint ch r ∧
    healthEndpoint (AddReadiness ch name check) r = healthEndpoint ch r :=
  ⟨rfl, rfl⟩

/-- C10: when the two normalized paths are equal, registering both
endpoint patterns panics (`http.ServeMux` rejects the duplicate
pattern), so `Handler` and `RegisterHandler` both panic; modelled by
`none`. -/
theorem claim10_equal_paths_panic (ch : checksHandler) (mux : List String)
    (h : ch.livenessPath = ch.readinessPath) :
    Handler ch = none ∧ RegisterHandler ch mux = none := by
  have key : ∀ m : List String, registerMux ch m = none := by
    intro m
    rw [registerMux, h]
    by_cases hp : ch.readinessPath = ""
    · simp [muxHandleFunc, hp]
    · by_cases hm : ch.readinessPath ∈ m
      · simp [muxHandleFunc, hp, hm]
      · simp [muxHandleFunc, hp, hm]
  exact ⟨key [], key mux⟩

/-- Witness for C10: both paths `/x` make `Handler` and
`RegisterHandler` panic. -/
theorem claim10_witness :
    Handler ⟨"/x", [], "/x", [], false, none⟩ = none ∧
    RegisterHandler ⟨"/x", [], "/x", [], false, none⟩ [] = none :=
  claim10_equal_paths_panic ⟨"/x", [], "/x", [], false, none⟩ [] rfl

end Health
